import Mathlib

/-!
# bfchroma: a gomarkdown renderer that highlights code blocks with chroma

A shallow embedding of `renderer.go` (package `bfchroma`).

The package is an adapter around collaborators that live in other modules
(`io.Writer`, chroma's lexers, styles and html formatter, gomarkdown's base
renderer).  Objects of those modules are handles; their methods and package
functions are the fields of `Env`, and every theorem quantifies over `Env`,
so it holds for any behaviour of the collaborators.  Collaborators are
deterministic functions of their arguments and of the sink they write to.

Every function of the package returns, next to its Go result, the list of
collaborator calls it made, oldest first.  The list is what "is invoked",
"is never invoked" and "exactly once" are stated on.
-/

namespace bfchroma

/-! ## Collaborator objects -/

/-- Go `[]byte`, and Go `string` (a conversion between the two keeps the bytes). -/
abbrev Bytes := List UInt8

/-- Go `error` values that are not nil. -/
structure Error where
  msg : String
  deriving DecidableEq

/-- The error `io.ErrShortWrite`. -/
def ErrShortWrite : Error := ⟨"short write"⟩

/-- A `chroma.Lexer` that is not nil. -/
structure chroma.Lexer where
  id : Nat
  deriving DecidableEq

/-- A `chroma.Token`: its type and its text. -/
structure chroma.Token where
  type : Nat
  value : Bytes
  deriving DecidableEq

/-- A `chroma.Iterator`, as the finite sequence of tokens it yields. -/
abbrev chroma.Iterator := List chroma.Token

/-- A `*chroma.Style`. -/
structure chroma.Style where
  id : Nat
  deriving DecidableEq

/-- A chroma `html.Option`. -/
structure html.Option where
  id : Nat
  deriving DecidableEq

/-- A `*html.Formatter` that is not nil. -/
structure html.Formatter where
  id : Nat
  deriving DecidableEq

/-- A gomarkdown `md.Renderer`, the renderer that is extended. -/
structure md.Renderer where
  id : Nat
  deriving DecidableEq

/-- The argument of `mdhtml.NewRenderer`; only `Flags` is set by this package. -/
structure mdhtml.RendererOptions where
  Flags : Nat
  deriving DecidableEq

/-- The traversal signal `ast.WalkStatus`. -/
inductive ast.WalkStatus where
  | GoToNext
  | SkipChildren
  | Terminate
  deriving DecidableEq

/-- The fields of `ast.CodeBlock` that the package reads: `Literal` (of the
embedded `ast.Leaf`) and `Info`.  `rest` stands for all the other fields. -/
structure ast.CodeBlock where
  Literal : Bytes
  Info : Bytes
  rest : Nat
  deriving DecidableEq

/-- An `ast.Node`, by dynamic type: `*ast.Document`, `*ast.CodeBlock`, or any
other node type (`kind` tells which).  `content` stands for what the package
never looks at. -/
inductive ast.Node where
  | Document (content : Nat)
  | CodeBlock (data : ast.CodeBlock)
  | Other (kind : Nat) (content : Nat)
  deriving DecidableEq

/-! ## The output sink -/

/-- An `io.Writer`: the bytes it has accepted so far, and how many more it
accepts before its writes fail (`none`: its writes never fail). -/
structure Writer where
  buf : Bytes
  room : Option Nat
  deriving DecidableEq

/-- `w.Write(p)`: the sink afterwards, the number of bytes accepted, and the
error.  A short write returns an error, as `io.Writer` requires. -/
def Writer.Write (w : Writer) (p : Bytes) : Writer × Nat × Option Error :=
  match w.room with
  | none => ({ w with buf := w.buf ++ p }, p.length, none)
  | some n =>
    if p.length ≤ n then
      ({ buf := w.buf ++ p, room := some (n - p.length) }, p.length, none)
    else
      ({ buf := w.buf ++ p.take n, room := some 0 }, n, some ErrShortWrite)

/-! ## Collaborator calls -/

/-- One call into a collaborator, with its arguments. -/
inductive Call where
  | stylesGet (name : Bytes)
  | mdhtmlNewRenderer (opts : mdhtml.RendererOptions)
  | htmlNew (options : List html.Option)
  | lexersGet (name : Bytes)
  | lexersAnalyse (text : Bytes)
  | Tokenise (lexer : chroma.Lexer) (text : Bytes)
  | Format (f : Option html.Formatter) (style : chroma.Style) (iterator : chroma.Iterator)
  | WriteCSS (f : Option html.Formatter) (style : chroma.Style)
  | Write (p : Bytes)
  | BaseRenderNode (base : md.Renderer) (node : ast.Node) (entering : Bool)
  | BaseRenderHeader (base : md.Renderer) (node : ast.Node)
  | BaseRenderFooter (base : md.Renderer) (node : ast.Node)
  deriving DecidableEq

/-- The collaborators: the package-level functions and values of chroma and
gomarkdown that `renderer.go` uses, and the methods of their objects (the
receiver is the first argument).  A method that writes takes the sink and
returns the sink afterwards. -/
structure Env where
  /-- The value `styles.Monokai`. -/
  stylesMonokai : chroma.Style
  /-- The function `styles.Get(name)`. -/
  stylesGet : Bytes → chroma.Style
  /-- The constant `mdhtml.CommonFlags`. -/
  mdhtmlCommonFlags : Nat
  /-- The function `mdhtml.NewRenderer(opts)`. -/
  mdhtmlNewRenderer : mdhtml.RendererOptions → md.Renderer
  /-- The function `html.New(options...)`. -/
  htmlNew : List html.Option → html.Formatter
  /-- The function `lexers.Get(name)`; `none` is a nil lexer. -/
  lexersGet : Bytes → Option chroma.Lexer
  /-- The function `lexers.Analyse(text)`; `none` is a nil lexer. -/
  lexersAnalyse : Bytes → Option chroma.Lexer
  /-- The value `lexers.Fallback`. -/
  lexersFallback : chroma.Lexer
  /-- The method `lexer.Tokenise(nil, text)`. -/
  Tokenise : chroma.Lexer → Bytes → Except Error chroma.Iterator
  /-- The method `f.Format(w, style, iterator)`; `none` is a nil error. -/
  Format : Option html.Formatter → Writer → chroma.Style → chroma.Iterator →
    Writer × Option Error
  /-- The method `f.WriteCSS(w, style)`; `none` is a nil error. -/
  WriteCSS : Option html.Formatter → Writer → chroma.Style → Writer × Option Error
  /-- The method `base.RenderNode(w, node, entering)`. -/
  BaseRenderNode : md.Renderer → Writer → ast.Node → Bool → Writer × ast.WalkStatus
  /-- The method `base.RenderHeader(w, ast)`. -/
  BaseRenderHeader : md.Renderer → Writer → ast.Node → Writer
  /-- The method `base.RenderFooter(w, ast)`. -/
  BaseRenderFooter : md.Renderer → Writer → ast.Node → Writer

/-- What a function that writes to a sink leaves behind: the sink afterwards,
the Go return value, and the collaborator calls made, oldest first. -/
structure Outcome (α : Type) where
  w : Writer
  val : α
  calls : List Call
  deriving DecidableEq

/-! ## The renderer -/

/-- The struct `Renderer`.  `Formatter` is a pointer that is nil (`none`)
until `NewRenderer` sets it. -/
structure Renderer where
  Base : md.Renderer
  Autodetect : Bool
  ChromaOptions : List html.Option
  Style : chroma.Style
  Formatter : Option html.Formatter
  embedCSS : Bool
  deriving DecidableEq

/-- The functional option type `Option`: a function that updates the
renderer (here also returning the collaborator calls it made). -/
abbrev Option' := Renderer → Renderer × List Call

/-- The option `Style(s)`: sets the style to `styles.Get(s)`. -/
def Style (env : Env) (s : Bytes) : Option' :=
  fun r => ({ r with Style := env.stylesGet s }, [Call.stylesGet s])

/-- The option `ChromaStyle(s)`: sets the style to `s`. -/
def ChromaStyle (s : chroma.Style) : Option' :=
  fun r => ({ r with Style := s }, [])

/-- The option `WithoutAutodetect()`. -/
def WithoutAutodetect : Option' :=
  fun r => ({ r with Autodetect := false }, [])

/-- The option `EmbedCSS()`. -/
def EmbedCSS : Option' :=
  fun r => ({ r with embedCSS := true }, [])

/-- The option `ChromaOptions(options...)`. -/
def ChromaOptions (options : List html.Option) : Option' :=
  fun r => ({ r with ChromaOptions := options }, [])

/-- The option `Extend(br)`. -/
def Extend (br : md.Renderer) : Option' :=
  fun r => ({ r with Base := br }, [])

/-- The loop `for _, option := range options { option(r) }`. -/
def applyOptions : List Option' → Renderer → Renderer × List Call
  | [], r => (r, [])
  | option :: rest, r =>
    let step := option r
    let tail := applyOptions rest step.1
    (tail.1, step.2 ++ tail.2)

/-- `NewRenderer(options...)`. -/
def NewRenderer (env : Env) (options : List Option') : Renderer × List Call :=
  let opts : mdhtml.RendererOptions := { Flags := env.mdhtmlCommonFlags }
  let r : Renderer :=
    { Base := env.mdhtmlNewRenderer opts
      Style := env.stylesMonokai
      Autodetect := true
      ChromaOptions := []
      Formatter := none
      embedCSS := false }
  let applied := applyOptions options r
  let r := applied.1
  ({ r with Formatter := some (env.htmlNew r.ChromaOptions) },
    [Call.mdhtmlNewRenderer opts] ++ applied.2 ++ [Call.htmlNew r.ChromaOptions])

/-- The first part of `RenderWithChroma`, "Determining the lexer to use"
(lines 85-95): the lexer that will tokenize, and the lookups made. -/
def selectLexer (env : Env) (r : Renderer) (text : Bytes) (data : ast.CodeBlock) :
    chroma.Lexer × List Call :=
  let found : Option chroma.Lexer × List Call :=
    if data.Info.length > 0 then
      (env.lexersGet data.Info, [Call.lexersGet data.Info])
    else if r.Autodetect then
      (env.lexersAnalyse text, [Call.lexersAnalyse text])
    else
      (none, [])
  match found.1 with
  | some lexer => (lexer, found.2)
  | none => (env.lexersFallback, found.2)

/-- `r.RenderWithChroma(w, text, data)`; the value is the returned error
(`none` is nil). -/
def RenderWithChroma (env : Env) (r : Renderer) (w : Writer) (text : Bytes)
    (data : ast.CodeBlock) : Outcome (Option Error) :=
  let sel := selectLexer env r text data
  let lexer := sel.1
  -- Tokenize the code
  match env.Tokenise lexer text with
  | Except.error err => ⟨w, some err, sel.2 ++ [Call.Tokenise lexer text]⟩
  | Except.ok iterator =>
    let res := env.Format r.Formatter w r.Style iterator
    ⟨res.1, res.2,
      sel.2 ++ [Call.Tokenise lexer text, Call.Format r.Formatter r.Style iterator]⟩

/-- The bytes of `"<style>"`. -/
def styleOpen : Bytes := [0x3c, 0x73, 0x74, 0x79, 0x6c, 0x65, 0x3e]

/-- The bytes of `"</style>"`. -/
def styleClose : Bytes := [0x3c, 0x2f, 0x73, 0x74, 0x79, 0x6c, 0x65, 0x3e]

/-- `r.ChromaCSS(w)`; the value is the returned error (`none` is nil). -/
def ChromaCSS (env : Env) (r : Renderer) (w : Writer) : Outcome (Option Error) :=
  let res := env.WriteCSS r.Formatter w r.Style
  ⟨res.1, res.2, [Call.WriteCSS r.Formatter r.Style]⟩

/-- `r.RenderNode(w, node, entering)`. -/
def RenderNode (env : Env) (r : Renderer) (w : Writer) (node : ast.Node)
    (entering : Bool) : Outcome ast.WalkStatus :=
  match node with
  | ast.Node.Document _ =>
    if entering && r.embedCSS then
      let w1 := (w.Write styleOpen).1
      let css := env.WriteCSS r.Formatter w1 r.Style
      let w3 := (css.1.Write styleClose).1
      let res := env.BaseRenderNode r.Base w3 node entering
      ⟨res.1, res.2,
        [Call.Write styleOpen, Call.WriteCSS r.Formatter r.Style, Call.Write styleClose,
          Call.BaseRenderNode r.Base node entering]⟩
    else
      let res := env.BaseRenderNode r.Base w node entering
      ⟨res.1, res.2, [Call.BaseRenderNode r.Base node entering]⟩
  | ast.Node.CodeBlock nodeData =>
    let hl := RenderWithChroma env r w nodeData.Literal nodeData
    match hl.val with
    | some _ =>
      let res := env.BaseRenderNode r.Base hl.w node entering
      ⟨res.1, res.2, hl.calls ++ [Call.BaseRenderNode r.Base node entering]⟩
    | none => ⟨hl.w, ast.WalkStatus.SkipChildren, hl.calls⟩
  | ast.Node.Other _ _ =>
    let res := env.BaseRenderNode r.Base w node entering
    ⟨res.1, res.2, [Call.BaseRenderNode r.Base node entering]⟩

/-- `r.RenderHeader(w, ast)`. -/
def RenderHeader (env : Env) (r : Renderer) (w : Writer) (ast : ast.Node) : Outcome Unit :=
  ⟨env.BaseRenderHeader r.Base w ast, (), [Call.BaseRenderHeader r.Base ast]⟩

/-- `r.RenderFooter(w, ast)`. -/
def RenderFooter (env : Env) (r : Renderer) (w : Writer) (ast : ast.Node) : Outcome Unit :=
  ⟨env.BaseRenderFooter r.Base w ast, (), [Call.BaseRenderFooter r.Base ast]⟩

/-! ## The exported options, as data

The type `Option` is a function type, so "the last option that targets a field" is
stated on a description of the option list: which exported constructor built
each option, with which argument. -/

/-- One call of an exported option constructor. -/
inductive Adjustment where
  | Style (s : Bytes)
  | ChromaStyle (s : chroma.Style)
  | WithoutAutodetect
  | EmbedCSS
  | ChromaOptions (options : List html.Option)
  | Extend (br : md.Renderer)
  deriving DecidableEq

/-- The option that the constructor call returns. -/
def Adjustment.toOption (env : Env) : Adjustment → Option'
  | Adjustment.Style s => bfchroma.Style env s
  | Adjustment.ChromaStyle s => bfchroma.ChromaStyle s
  | Adjustment.WithoutAutodetect => bfchroma.WithoutAutodetect
  | Adjustment.EmbedCSS => bfchroma.EmbedCSS
  | Adjustment.ChromaOptions options => bfchroma.ChromaOptions options
  | Adjustment.Extend br => bfchroma.Extend br

/-- The style that one option sets, if it targets the style. -/
def Adjustment.style? (env : Env) : Adjustment → Option chroma.Style
  | Adjustment.Style s => some (env.stylesGet s)
  | Adjustment.ChromaStyle s => some s
  | _ => none

/-- The formatter options that one option sets, if it targets them. -/
def Adjustment.chromaOptions? : Adjustment → Option (List html.Option)
  | Adjustment.ChromaOptions options => some options
  | _ => none

/-- The base renderer that one option sets, if it targets it. -/
def Adjustment.base? : Adjustment → Option md.Renderer
  | Adjustment.Extend br => some br
  | _ => none

/-- The autodetect flag that one option sets, if it targets it. -/
def Adjustment.autodetect? : Adjustment → Option Bool
  | Adjustment.WithoutAutodetect => some false
  | _ => none

/-- The CSS-embedding flag that one option sets, if it targets it. -/
def Adjustment.embedCSS? : Adjustment → Option Bool
  | Adjustment.EmbedCSS => some true
  | _ => none

/-- The value set by the last element of the list that sets one (`sets` tells
what an element sets), `none` when no element does. -/
def lastSet {α β : Type} (sets : α → Option β) : List α → Option β
  | [] => none
  | a :: rest =>
    match lastSet sets rest with
    | some b => some b
    | none => sets a

/-! ## A concrete collaborator environment

One small implementation of every collaborator, on which the functions of
the package can be evaluated. -/

/-- The bytes of `"go"`. -/
def demoGo : Bytes := [0x67, 0x6f]

/-- The bytes of `"xyz"`, a language name that is not registered. -/
def demoXyz : Bytes := [0x78, 0x79, 0x7a]

/-- The bytes of `"<p>"`. -/
def demoHtmlText : Bytes := [0x3c, 0x70, 0x3e]

/-- The bytes of `"x=1"`. -/
def demoPlainText : Bytes := [0x78, 0x3d, 0x31]

/-- The bytes of `"a{}"`, the CSS that the demo formatter writes. -/
def demoCSS : Bytes := [0x61, 0x7b, 0x7d]

/-- The text of a token stream: the token texts, in order. -/
def tokenText : chroma.Iterator → Bytes
  | [] => []
  | t :: rest => t.value ++ tokenText rest

/-- The formatter option `html.Standalone()` of the demo environment. -/
def demoStandalone : html.Option := ⟨1⟩

/-- The formatter option `html.WithClasses()` of the demo environment. -/
def demoWithClasses : html.Option := ⟨2⟩

/-- A registry with one language ("go", lexer 1), a heuristic that recognises
text starting with `<` (lexer 2), the plain-text lexer 0, and a go lexer that
fails on text starting with a NUL byte.  The formatter built by `html.New` is
numbered by its mode: 1 when `demoStandalone` is among the options, plus 2
when `demoWithClasses` is.  `WriteCSS` writes the CSS `demoCSS` and returns
the error of that write.  `Format` follows chroma's html formatter on write
errors: in standalone mode with classes (formatter 3) it first writes the CSS
through `WriteCSS` and returns its error; every other write is unchecked, so
in the other modes `Format` writes the token texts and returns nil whatever
the sink does.  The base renderer writes a code block's literal text and
nothing for other nodes. -/
def demoEnv : Env where
  stylesMonokai := ⟨0⟩
  stylesGet := fun name => if name = demoGo then ⟨1⟩ else ⟨9⟩
  mdhtmlCommonFlags := 7
  mdhtmlNewRenderer := fun opts => ⟨opts.Flags⟩
  htmlNew := fun options =>
    ⟨(if demoStandalone ∈ options then 1 else 0) +
      (if demoWithClasses ∈ options then 2 else 0)⟩
  lexersGet := fun name => if name = demoGo then some ⟨1⟩ else none
  lexersAnalyse := fun text => if text.head? = some 0x3c then some ⟨2⟩ else none
  lexersFallback := ⟨0⟩
  Tokenise := fun lexer text =>
    if lexer.id = 1 ∧ text.head? = some 0 then Except.error ⟨"go: bad input"⟩
    else Except.ok [⟨lexer.id, text⟩]
  Format := fun f w _ iterator =>
    if f = some ⟨3⟩ then
      let css := w.Write demoCSS
      match css.2.2 with
      | some err => (css.1, some err)
      | none => ((css.1.Write (tokenText iterator)).1, none)
    else
      ((w.Write (tokenText iterator)).1, none)
  WriteCSS := fun _ w _ =>
    let res := w.Write demoCSS
    (res.1, res.2.2)
  BaseRenderNode := fun _ w node _ =>
    match node with
    | ast.Node.CodeBlock data => ((w.Write data.Literal).1, ast.WalkStatus.GoToNext)
    | _ => (w, ast.WalkStatus.GoToNext)
  BaseRenderHeader := fun _ w _ => w
  BaseRenderFooter := fun _ w _ => w

/-- The renderer `NewRenderer()` of the demo environment. -/
def demoRenderer : Renderer := (NewRenderer demoEnv []).1

/-- The renderer `NewRenderer(ChromaOptions(html.Standalone(true),
html.WithClasses(true)))` of the demo environment. -/
def demoStandaloneRenderer : Renderer :=
  (NewRenderer demoEnv [ChromaOptions [demoStandalone, demoWithClasses]]).1

/-- An empty sink whose writes never fail. -/
def demoSink : Writer := { buf := [], room := none }

/-- An empty sink that accepts no byte: every write of one or more bytes fails. -/
def fullSink : Writer := { buf := [], room := some 0 }

/-! ## Lexer selection -/

/-- The calls of `RenderWithChroma`: the lookups of the lexer selection, then
`Tokenise`, then `Format` when tokenizing succeeded. -/
theorem RenderWithChroma_calls (env : Env) (r : Renderer) (w : Writer) (text : Bytes)
    (data : ast.CodeBlock) :
    (RenderWithChroma env r w text data).calls =
      (selectLexer env r text data).2 ++
        Call.Tokenise (selectLexer env r text data).1 text ::
          (match env.Tokenise (selectLexer env r text data).1 text with
            | Except.error _ => []
            | Except.ok iterator => [Call.Format r.Formatter r.Style iterator]) := by
  unfold RenderWithChroma
  cases hT : env.Tokenise (selectLexer env r text data).1 text <;> simp [hT]

/-- When tokenizing fails, `RenderWithChroma` leaves the sink as it was and
returns the tokenizer's error, without calling the formatter. -/
theorem RenderWithChroma_of_error (env : Env) (r : Renderer) (w : Writer) (text : Bytes)
    (data : ast.CodeBlock) (e : Error)
    (hT : env.Tokenise (selectLexer env r text data).1 text = Except.error e) :
    RenderWithChroma env r w text data =
      ⟨w, some e, (selectLexer env r text data).2 ++
        [Call.Tokenise (selectLexer env r text data).1 text]⟩ := by
  simp [RenderWithChroma, hT]

/-- When tokenizing succeeds, the sink and the error of `RenderWithChroma`
are those of `Format` on the token stream. -/
theorem RenderWithChroma_of_ok (env : Env) (r : Renderer) (w : Writer) (text : Bytes)
    (data : ast.CodeBlock) (iterator : chroma.Iterator)
    (hT : env.Tokenise (selectLexer env r text data).1 text = Except.ok iterator) :
    RenderWithChroma env r w text data =
      ⟨(env.Format r.Formatter w r.Style iterator).1,
        (env.Format r.Formatter w r.Style iterator).2,
        (selectLexer env r text data).2 ++
          [Call.Tokenise (selectLexer env r text data).1 text,
            Call.Format r.Formatter r.Style iterator]⟩ := by
  simp [RenderWithChroma, hT]

/-- Claim C1.  When the info string is not empty and `lexers.Get` returns a
lexer for it, then whatever `Autodetect` is, the lexer selected is that lexer
and the only lookup made is that `lexers.Get`; `RenderWithChroma` tokenizes
the text with that lexer and no other, and never calls `lexers.Analyse`. -/
theorem selectLexer_registered (env : Env) (r : Renderer) (w : Writer) (text : Bytes)
    (data : ast.CodeBlock) (lexer : chroma.Lexer)
    (hInfo : data.Info.length > 0) (hGet : env.lexersGet data.Info = some lexer) :
    selectLexer env r text data = (lexer, [Call.lexersGet data.Info]) ∧
    Call.Tokenise lexer text ∈ (RenderWithChroma env r w text data).calls ∧
    (∀ l t, Call.Tokenise l t ∈ (RenderWithChroma env r w text data).calls →
      l = lexer ∧ t = text) ∧
    (∀ t, Call.lexersAnalyse t ∉ (RenderWithChroma env r w text data).calls) := by
  have hsel : selectLexer env r text data = (lexer, [Call.lexersGet data.Info]) := by
    simp [selectLexer, hInfo, hGet]
  refine ⟨hsel, ?_, ?_, ?_⟩
  · rw [RenderWithChroma_calls, hsel]; simp
  · intro l t h
    rw [RenderWithChroma_calls, hsel] at h
    cases hT : env.Tokenise lexer text <;> simp [hT] at h <;> exact h
  · intro t h
    rw [RenderWithChroma_calls, hsel] at h
    cases hT : env.Tokenise lexer text <;> simp [hT] at h

/-- Claim C1 at the demo environment: a block with info string "go". -/
theorem selectLexer_registered_witness :
    (demoGo.length > 0 ∧ demoEnv.lexersGet demoGo = some ⟨1⟩) ∧
    (selectLexer demoEnv demoRenderer demoPlainText ⟨demoPlainText, demoGo, 0⟩ =
        (⟨1⟩, [Call.lexersGet demoGo]) ∧
      Call.Tokenise ⟨1⟩ demoPlainText ∈
        (RenderWithChroma demoEnv demoRenderer demoSink demoPlainText
          ⟨demoPlainText, demoGo, 0⟩).calls ∧
      (∀ l t, Call.Tokenise l t ∈
        (RenderWithChroma demoEnv demoRenderer demoSink demoPlainText
          ⟨demoPlainText, demoGo, 0⟩).calls → l = ⟨1⟩ ∧ t = demoPlainText) ∧
      (∀ t, Call.lexersAnalyse t ∉
        (RenderWithChroma demoEnv demoRenderer demoSink demoPlainText
          ⟨demoPlainText, demoGo, 0⟩).calls)) :=
  ⟨⟨by decide, by decide⟩,
    selectLexer_registered demoEnv demoRenderer demoSink demoPlainText
      ⟨demoPlainText, demoGo, 0⟩ ⟨1⟩ (by decide) (by decide)⟩

/-- Claim C2, as stated, fails.  In the demo environment take a block with
info string "xyz" (not registered) and text "<p>", with autodetection
enabled.  The heuristic would return lexer 2 for that text, yet it is not
called: the lexer selected is the plain-text lexer 0, after the one lookup
by name. -/
theorem selectLexer_unregistered_autodetect_counterexample :
    demoXyz.length > 0 ∧
    demoEnv.lexersGet demoXyz = none ∧
    demoRenderer.Autodetect = true ∧
    demoEnv.lexersAnalyse demoHtmlText = some ⟨2⟩ ∧
    selectLexer demoEnv demoRenderer demoHtmlText ⟨demoHtmlText, demoXyz, 0⟩ =
      (demoEnv.lexersFallback, [Call.lexersGet demoXyz]) ∧
    (selectLexer demoEnv demoRenderer demoHtmlText ⟨demoHtmlText, demoXyz, 0⟩).1 ≠ ⟨2⟩ ∧
    Call.lexersAnalyse demoHtmlText ∉
      (RenderWithChroma demoEnv demoRenderer demoSink demoHtmlText
        ⟨demoHtmlText, demoXyz, 0⟩).calls ∧
    Call.Tokenise ⟨2⟩ demoHtmlText ∉
      (RenderWithChroma demoEnv demoRenderer demoSink demoHtmlText
        ⟨demoHtmlText, demoXyz, 0⟩).calls := by
  decide

/-- Claim C2, amended.  When the info string is not empty and `lexers.Get`
returns no lexer for it, then whatever `Autodetect` is, the lexer selected is
`lexers.Fallback` and the only lookup made is that `lexers.Get`;
`RenderWithChroma` tokenizes the text with the fallback lexer and no other,
and never calls `lexers.Analyse`. -/
theorem selectLexer_unregistered (env : Env) (r : Renderer) (w : Writer) (text : Bytes)
    (data : ast.CodeBlock)
    (hInfo : data.Info.length > 0) (hGet : env.lexersGet data.Info = none) :
    selectLexer env r text data = (env.lexersFallback, [Call.lexersGet data.Info]) ∧
    Call.Tokenise env.lexersFallback text ∈ (RenderWithChroma env r w text data).calls ∧
    (∀ l t, Call.Tokenise l t ∈ (RenderWithChroma env r w text data).calls →
      l = env.lexersFallback ∧ t = text) ∧
    (∀ t, Call.lexersAnalyse t ∉ (RenderWithChroma env r w text data).calls) := by
  have hsel : selectLexer env r text data =
      (env.lexersFallback, [Call.lexersGet data.Info]) := by
    simp [selectLexer, hInfo, hGet]
  refine ⟨hsel, ?_, ?_, ?_⟩
  · rw [RenderWithChroma_calls, hsel]; simp
  · intro l t h
    rw [RenderWithChroma_calls, hsel] at h
    cases hT : env.Tokenise env.lexersFallback text <;> simp [hT] at h <;> exact h
  · intro t h
    rw [RenderWithChroma_calls, hsel] at h
    cases hT : env.Tokenise env.lexersFallback text <;> simp [hT] at h

/-- Claim C2, amended, at the demo environment: info string "xyz", text
"<p>", autodetection enabled. -/
theorem selectLexer_unregistered_witness :
    (demoXyz.length > 0 ∧ demoEnv.lexersGet demoXyz = none) ∧
    (selectLexer demoEnv demoRenderer demoHtmlText ⟨demoHtmlText, demoXyz, 0⟩ =
        (demoEnv.lexersFallback, [Call.lexersGet demoXyz]) ∧
      Call.Tokenise demoEnv.lexersFallback demoHtmlText ∈
        (RenderWithChroma demoEnv demoRenderer demoSink demoHtmlText
          ⟨demoHtmlText, demoXyz, 0⟩).calls ∧
      (∀ l t, Call.Tokenise l t ∈
        (RenderWithChroma demoEnv demoRenderer demoSink demoHtmlText
          ⟨demoHtmlText, demoXyz, 0⟩).calls → l = demoEnv.lexersFallback ∧ t = demoHtmlText) ∧
      (∀ t, Call.lexersAnalyse t ∉
        (RenderWithChroma demoEnv demoRenderer demoSink demoHtmlText
          ⟨demoHtmlText, demoXyz, 0⟩).calls)) :=
  ⟨⟨by decide, by decide⟩,
    selectLexer_unregistered demoEnv demoRenderer demoSink demoHtmlText
      ⟨demoHtmlText, demoXyz, 0⟩ (by decide) (by decide)⟩

/-- Claim C3.  When the info string is empty and `Autodetect` is set, the
only lookup of the lexer selection is one call of `lexers.Analyse` on the
text, and the lexer selected is its result, or `lexers.Fallback` when it
returns none.  In `RenderWithChroma` that call occurs exactly once, no other
call of `lexers.Analyse` and no call of `lexers.Get` occurs, and the text is
tokenized with the selected lexer and no other. -/
theorem selectLexer_autodetect (env : Env) (r : Renderer) (w : Writer) (text : Bytes)
    (data : ast.CodeBlock) (hInfo : data.Info = []) (hAuto : r.Autodetect = true) :
    selectLexer env r text data =
      ((env.lexersAnalyse text).getD env.lexersFallback, [Call.lexersAnalyse text]) ∧
    (RenderWithChroma env r w text data).calls.count (Call.lexersAnalyse text) = 1 ∧
    (∀ t, Call.lexersAnalyse t ∈ (RenderWithChroma env r w text data).calls → t = text) ∧
    (∀ name, Call.lexersGet name ∉ (RenderWithChroma env r w text data).calls) ∧
    Call.Tokenise ((env.lexersAnalyse text).getD env.lexersFallback) text ∈
      (RenderWithChroma env r w text data).calls ∧
    (∀ l t, Call.Tokenise l t ∈ (RenderWithChroma env r w text data).calls →
      l = (env.lexersAnalyse text).getD env.lexersFallback ∧ t = text) := by
  have hsel : selectLexer env r text data =
      ((env.lexersAnalyse text).getD env.lexersFallback, [Call.lexersAnalyse text]) := by
    cases hA : env.lexersAnalyse text <;> simp [selectLexer, hInfo, hAuto, hA]
  refine ⟨hsel, ?_, ?_, ?_, ?_, ?_⟩
  · rw [RenderWithChroma_calls, hsel]
    cases hT : env.Tokenise ((env.lexersAnalyse text).getD env.lexersFallback) text <;>
      simp [hT, List.count_cons]
  · intro t h
    rw [RenderWithChroma_calls, hsel] at h
    cases hT : env.Tokenise ((env.lexersAnalyse text).getD env.lexersFallback) text <;>
      simp [hT] at h <;> exact h
  · intro name h
    rw [RenderWithChroma_calls, hsel] at h
    cases hT : env.Tokenise ((env.lexersAnalyse text).getD env.lexersFallback) text <;>
      simp [hT] at h
  · rw [RenderWithChroma_calls, hsel]; simp
  · intro l t h
    rw [RenderWithChroma_calls, hsel] at h
    cases hT : env.Tokenise ((env.lexersAnalyse text).getD env.lexersFallback) text <;>
      simp [hT] at h <;> exact h

/-- Claim C3 at the demo environment: no info string, text "<p>", for which
the heuristic returns lexer 2. -/
theorem selectLexer_autodetect_witness :
    (([] : Bytes) = [] ∧ demoRenderer.Autodetect = true) ∧
    selectLexer demoEnv demoRenderer demoHtmlText ⟨demoHtmlText, [], 0⟩ =
      (⟨2⟩, [Call.lexersAnalyse demoHtmlText]) ∧
    (RenderWithChroma demoEnv demoRenderer demoSink demoHtmlText
      ⟨demoHtmlText, [], 0⟩).calls.count (Call.lexersAnalyse demoHtmlText) = 1 :=
  have h := selectLexer_autodetect demoEnv demoRenderer demoSink demoHtmlText
    ⟨demoHtmlText, [], 0⟩ rfl (by decide)
  ⟨⟨rfl, by decide⟩, h.1, h.2.1⟩

/-- Claim C4.  With `Autodetect` unset, when the info string is empty or
`lexers.Get` returns no lexer for it, the lexer selected is `lexers.Fallback`;
`RenderWithChroma` never calls `lexers.Analyse` and tokenizes the text with
the fallback lexer and no other.  An error it returns is the tokenizer's or
the formatter's, never one of the selection; so when the fallback lexer
tokenizes the text, the sink and the error it returns are exactly those of
`Format` on that token stream. -/
theorem RenderWithChroma_withoutAutodetect (env : Env) (r : Renderer) (w : Writer)
    (text : Bytes) (data : ast.CodeBlock) (hAuto : r.Autodetect = false)
    (hInfo : data.Info = [] ∨ env.lexersGet data.Info = none) :
    (selectLexer env r text data).1 = env.lexersFallback ∧
    (∀ t, Call.lexersAnalyse t ∉ (RenderWithChroma env r w text data).calls) ∧
    Call.Tokenise env.lexersFallback text ∈ (RenderWithChroma env r w text data).calls ∧
    (∀ l t, Call.Tokenise l t ∈ (RenderWithChroma env r w text data).calls →
      l = env.lexersFallback ∧ t = text) ∧
    (∀ e, (RenderWithChroma env r w text data).val = some e →
      env.Tokenise env.lexersFallback text = Except.error e ∨
      ∃ iterator, env.Tokenise env.lexersFallback text = Except.ok iterator ∧
        (env.Format r.Formatter w r.Style iterator).2 = some e) ∧
    (∀ iterator, env.Tokenise env.lexersFallback text = Except.ok iterator →
      (RenderWithChroma env r w text data).w =
        (env.Format r.Formatter w r.Style iterator).1 ∧
      (RenderWithChroma env r w text data).val =
        (env.Format r.Formatter w r.Style iterator).2) := by
  have hsel : (selectLexer env r text data).1 = env.lexersFallback ∧
      ∀ t, Call.lexersAnalyse t ∉ (selectLexer env r text data).2 := by
    rcases hInfo with h | h
    · simp [selectLexer, h, hAuto]
    · by_cases hlen : data.Info.length > 0
      · simp [selectLexer, hlen, h]
      · simp [selectLexer, hlen, hAuto]
  obtain ⟨h1, h2⟩ := hsel
  refine ⟨h1, ?_, ?_, ?_, ?_, ?_⟩
  · intro t h
    rw [RenderWithChroma_calls, h1] at h
    cases hT : env.Tokenise env.lexersFallback text <;> simp [hT, h2] at h
  · rw [RenderWithChroma_calls, h1]; simp
  · intro l t h
    rw [RenderWithChroma_calls, h1] at h
    have h3 : ∀ l t, Call.Tokenise l t ∉ (selectLexer env r text data).2 := by
      intro l t
      simp only [selectLexer]
      split <;> split <;> simp
      all_goals split <;> simp
    cases hT : env.Tokenise env.lexersFallback text <;> simp [hT, h3] at h <;> exact h
  · intro e he
    cases hT : env.Tokenise env.lexersFallback text with
    | error err =>
      rw [RenderWithChroma_of_error env r w text data err (by rw [h1]; exact hT)] at he
      simp at he
      simp [he]
    | ok iterator =>
      rw [RenderWithChroma_of_ok env r w text data iterator (by rw [h1]; exact hT)] at he
      simp at he
      simp [he]
  · intro iterator hT
    rw [RenderWithChroma_of_ok env r w text data iterator (by rw [h1]; exact hT)]
    simp

/-- Claim C4 at the demo environment: a renderer built with
`WithoutAutodetect()`, a block with info string "xyz" and text "<p>". -/
theorem RenderWithChroma_withoutAutodetect_witness :
    ((NewRenderer demoEnv [WithoutAutodetect]).1.Autodetect = false ∧
      demoEnv.lexersGet demoXyz = none) ∧
    (selectLexer demoEnv (NewRenderer demoEnv [WithoutAutodetect]).1 demoHtmlText
      ⟨demoHtmlText, demoXyz, 0⟩).1 = demoEnv.lexersFallback ∧
    (RenderWithChroma demoEnv (NewRenderer demoEnv [WithoutAutodetect]).1 demoSink
      demoHtmlText ⟨demoHtmlText, demoXyz, 0⟩).w = ⟨demoHtmlText, none⟩ ∧
    (RenderWithChroma demoEnv (NewRenderer demoEnv [WithoutAutodetect]).1 demoSink
      demoHtmlText ⟨demoHtmlText, demoXyz, 0⟩).val = none :=
  have h := RenderWithChroma_withoutAutodetect demoEnv
    (NewRenderer demoEnv [WithoutAutodetect]).1 demoSink demoHtmlText
    ⟨demoHtmlText, demoXyz, 0⟩ (by decide) (Or.inr (by decide))
  ⟨⟨by decide, by decide⟩, h.1,
    (h.2.2.2.2.2 [⟨0, demoHtmlText⟩] rfl).1,
    (h.2.2.2.2.2 [⟨0, demoHtmlText⟩] rfl).2⟩

/-! ## The per-node entry point -/

/-- The lexer selection makes no call but one lookup, by name or by content. -/
theorem selectLexer_calls (env : Env) (r : Renderer) (text : Bytes) (data : ast.CodeBlock) :
    (selectLexer env r text data).2 = [] ∨
    (selectLexer env r text data).2 = [Call.lexersGet data.Info] ∨
    (selectLexer env r text data).2 = [Call.lexersAnalyse text] := by
  simp only [selectLexer]
  split <;> split <;> simp
  all_goals split <;> simp

/-- Claim C5.  For a code block whose text the selected lexer fails to
tokenize, `RenderWithChroma` leaves the sink as it was, returns the
tokenizer's error and calls neither `Write` nor `Format`; `RenderNode` then
calls `Base.RenderNode` on the same sink, node and entering flag, and its sink
and traversal signal are those of that call. -/
theorem RenderNode_tokenise_error (env : Env) (r : Renderer) (w : Writer)
    (data : ast.CodeBlock) (entering : Bool) (e : Error)
    (hT : env.Tokenise (selectLexer env r data.Literal data).1 data.Literal =
      Except.error e) :
    (RenderWithChroma env r w data.Literal data).w = w ∧
    (RenderWithChroma env r w data.Literal data).val = some e ∧
    (∀ p, Call.Write p ∉ (RenderWithChroma env r w data.Literal data).calls) ∧
    (∀ f s i, Call.Format f s i ∉ (RenderWithChroma env r w data.Literal data).calls) ∧
    (RenderNode env r w (ast.Node.CodeBlock data) entering).w =
      (env.BaseRenderNode r.Base w (ast.Node.CodeBlock data) entering).1 ∧
    (RenderNode env r w (ast.Node.CodeBlock data) entering).val =
      (env.BaseRenderNode r.Base w (ast.Node.CodeBlock data) entering).2 ∧
    (RenderNode env r w (ast.Node.CodeBlock data) entering).calls =
      (RenderWithChroma env r w data.Literal data).calls ++
        [Call.BaseRenderNode r.Base (ast.Node.CodeBlock data) entering] := by
  have hR := RenderWithChroma_of_error env r w data.Literal data e hT
  refine ⟨by rw [hR], by rw [hR], ?_, ?_, ?_, ?_, ?_⟩
  · intro p h
    rw [hR] at h
    rcases selectLexer_calls env r data.Literal data with hc | hc | hc <;>
      simp [hc] at h
  · intro f s i h
    rw [hR] at h
    rcases selectLexer_calls env r data.Literal data with hc | hc | hc <;>
      simp [hc] at h
  · simp [RenderNode, hR]
  · simp [RenderNode, hR]
  · simp [RenderNode, hR]

/-- Claim C5 at the demo environment: a "go" block whose text starts with a
NUL byte, which the go lexer rejects; the base renderer writes the text. -/
theorem RenderNode_tokenise_error_witness :
    demoEnv.Tokenise (selectLexer demoEnv demoRenderer [0, 0x78] ⟨[0, 0x78], demoGo, 0⟩).1
      [0, 0x78] = Except.error ⟨"go: bad input"⟩ ∧
    (RenderWithChroma demoEnv demoRenderer demoSink [0, 0x78] ⟨[0, 0x78], demoGo, 0⟩).w =
      demoSink ∧
    (RenderNode demoEnv demoRenderer demoSink
      (ast.Node.CodeBlock ⟨[0, 0x78], demoGo, 0⟩) true).w = ⟨[0, 0x78], none⟩ ∧
    (RenderNode demoEnv demoRenderer demoSink
      (ast.Node.CodeBlock ⟨[0, 0x78], demoGo, 0⟩) true).val = ast.WalkStatus.GoToNext :=
  have h := RenderNode_tokenise_error demoEnv demoRenderer demoSink
    ⟨[0, 0x78], demoGo, 0⟩ true ⟨"go: bad input"⟩ rfl
  ⟨rfl, h.1, h.2.2.2.2.1, h.2.2.2.2.2.1⟩

/-- Claim C6.  For a code block on which `RenderWithChroma` returns no error,
`RenderNode` returns `SkipChildren`, its sink and calls are those of
`RenderWithChroma`, it calls neither `Base.RenderNode` nor `Write`, and the
sink is the one `Format` left when given the token stream of the block's
text. -/
theorem RenderNode_highlighted (env : Env) (r : Renderer) (w : Writer)
    (data : ast.CodeBlock) (entering : Bool)
    (hOk : (RenderWithChroma env r w data.Literal data).val = none) :
    RenderNode env r w (ast.Node.CodeBlock data) entering =
      ⟨(RenderWithChroma env r w data.Literal data).w, ast.WalkStatus.SkipChildren,
        (RenderWithChroma env r w data.Literal data).calls⟩ ∧
    (∀ b n e, Call.BaseRenderNode b n e ∉
      (RenderNode env r w (ast.Node.CodeBlock data) entering).calls) ∧
    (∀ p, Call.Write p ∉ (RenderNode env r w (ast.Node.CodeBlock data) entering).calls) ∧
    (∃ iterator,
      env.Tokenise (selectLexer env r data.Literal data).1 data.Literal =
        Except.ok iterator ∧
      env.Format r.Formatter w r.Style iterator =
        ((RenderNode env r w (ast.Node.CodeBlock data) entering).w, none)) := by
  have hN : RenderNode env r w (ast.Node.CodeBlock data) entering =
      ⟨(RenderWithChroma env r w data.Literal data).w, ast.WalkStatus.SkipChildren,
        (RenderWithChroma env r w data.Literal data).calls⟩ := by
    simp [RenderNode, hOk]
  have hsel := selectLexer_calls env r data.Literal data
  cases hT : env.Tokenise (selectLexer env r data.Literal data).1 data.Literal with
  | error err =>
    rw [RenderWithChroma_of_error env r w data.Literal data err hT] at hOk
    simp at hOk
  | ok iterator =>
    have hR := RenderWithChroma_of_ok env r w data.Literal data iterator hT
    rw [hR] at hOk
    simp only at hOk
    refine ⟨hN, ?_, ?_, iterator, rfl, ?_⟩
    · intro b n e h
      rw [hN, hR] at h
      rcases hsel with hc | hc | hc <;> simp [hc] at h
    · intro p h
      rw [hN, hR] at h
      rcases hsel with hc | hc | hc <;> simp [hc] at h
    · rw [hN, hR]
      exact Prod.ext rfl hOk

/-- Claim C6 at the demo environment: a "go" block with text "x=1". -/
theorem RenderNode_highlighted_witness :
    (RenderWithChroma demoEnv demoRenderer demoSink demoPlainText
      ⟨demoPlainText, demoGo, 0⟩).val = none ∧
    (RenderNode demoEnv demoRenderer demoSink
      (ast.Node.CodeBlock ⟨demoPlainText, demoGo, 0⟩) true).val =
        ast.WalkStatus.SkipChildren ∧
    (RenderNode demoEnv demoRenderer demoSink
      (ast.Node.CodeBlock ⟨demoPlainText, demoGo, 0⟩) true).w = ⟨demoPlainText, none⟩ :=
  have h := RenderNode_highlighted demoEnv demoRenderer demoSink
    ⟨demoPlainText, demoGo, 0⟩ true (by decide)
  ⟨by decide, congrArg Outcome.val h.1, congrArg Outcome.w h.1⟩

/-- Claim C7.  For a node that is not a code block, and that is not a
document root visited on entry with CSS embedding enabled, `RenderNode` makes
one call, `Base.RenderNode` on the same sink, node and entering flag, and
returns the sink and the traversal signal of that call; it writes nothing
itself. -/
theorem RenderNode_delegates (env : Env) (r : Renderer) (w : Writer) (node : ast.Node)
    (entering : Bool) (hNode : ∀ data, node ≠ ast.Node.CodeBlock data)
    (hRoot : ¬ ((∃ content, node = ast.Node.Document content) ∧ entering = true ∧
      r.embedCSS = true)) :
    RenderNode env r w node entering =
      ⟨(env.BaseRenderNode r.Base w node entering).1,
        (env.BaseRenderNode r.Base w node entering).2,
        [Call.BaseRenderNode r.Base node entering]⟩ ∧
    (∀ p, Call.Write p ∉ (RenderNode env r w node entering).calls) ∧
    (∀ f s, Call.WriteCSS f s ∉ (RenderNode env r w node entering).calls) := by
  have hN : RenderNode env r w node entering =
      ⟨(env.BaseRenderNode r.Base w node entering).1,
        (env.BaseRenderNode r.Base w node entering).2,
        [Call.BaseRenderNode r.Base node entering]⟩ := by
    cases node with
    | Document content =>
      have hc : ¬ (entering = true ∧ r.embedCSS = true) := fun h => hRoot ⟨⟨content, rfl⟩, h⟩
      simp [RenderNode, hc]
    | CodeBlock data => exact absurd rfl (hNode data)
    | Other kind content => simp [RenderNode]
  refine ⟨hN, ?_, ?_⟩
  · intro p h
    rw [hN] at h
    simp at h
  · intro f s h
    rw [hN] at h
    simp at h

/-- Claim C7 at the demo environment: a document root on entry, with CSS
embedding off (the default). -/
theorem RenderNode_delegates_witness :
    ((∀ data, ast.Node.Document 0 ≠ ast.Node.CodeBlock data) ∧
      ¬ ((∃ content, ast.Node.Document 0 = ast.Node.Document content) ∧ true = true ∧
        demoRenderer.embedCSS = true)) ∧
    RenderNode demoEnv demoRenderer demoSink (ast.Node.Document 0) true =
      ⟨demoSink, ast.WalkStatus.GoToNext,
        [Call.BaseRenderNode demoRenderer.Base (ast.Node.Document 0) true]⟩ :=
  ⟨⟨fun _ h => ast.Node.noConfusion h, fun h => Bool.noConfusion h.2.2⟩,
    (RenderNode_delegates demoEnv demoRenderer demoSink (ast.Node.Document 0) true
      (fun _ h => ast.Node.noConfusion h) (fun h => Bool.noConfusion h.2.2)).1⟩

/-- Claim C8.  The two tags that `RenderNode` writes are the bytes of
"<style>" (3c 73 74 79 6c 65 3e) and of "</style>" (3c 2f 73 74 79 6c 65 3e).
For a renderer with CSS embedding enabled, visiting the document root on
entry does four things to the sink, in this order: it writes "<style>", does
what `ChromaCSS` does on the sink so obtained, writes "</style>", and calls
`Base.RenderNode` for the root on entry; the sink and the traversal signal
returned are those of `Base.RenderNode`.  So on a sink whose writes never
fail, if `ChromaCSS` appends the bytes `css` there and `Base.RenderNode`
appends the bytes `out`, the bytes appended by `RenderNode` are "<style>",
`css`, "</style>", `out`. -/
theorem RenderNode_embedCSS (env : Env) (r : Renderer) (w : Writer) (content : Nat)
    (hEmbed : r.embedCSS = true) :
    "<style>".toUTF8.data.toList = [0x3c, 0x73, 0x74, 0x79, 0x6c, 0x65, 0x3e] ∧
    "</style>".toUTF8.data.toList = [0x3c, 0x2f, 0x73, 0x74, 0x79, 0x6c, 0x65, 0x3e] ∧
    RenderNode env r w (ast.Node.Document content) true =
      ⟨(env.BaseRenderNode r.Base
          (((ChromaCSS env r
              (w.Write [0x3c, 0x73, 0x74, 0x79, 0x6c, 0x65, 0x3e]).1).w).Write
            [0x3c, 0x2f, 0x73, 0x74, 0x79, 0x6c, 0x65, 0x3e]).1
          (ast.Node.Document content) true).1,
        (env.BaseRenderNode r.Base
          (((ChromaCSS env r
              (w.Write [0x3c, 0x73, 0x74, 0x79, 0x6c, 0x65, 0x3e]).1).w).Write
            [0x3c, 0x2f, 0x73, 0x74, 0x79, 0x6c, 0x65, 0x3e]).1
          (ast.Node.Document content) true).2,
        [Call.Write [0x3c, 0x73, 0x74, 0x79, 0x6c, 0x65, 0x3e]] ++
          (ChromaCSS env r (w.Write [0x3c, 0x73, 0x74, 0x79, 0x6c, 0x65, 0x3e]).1).calls ++
          [Call.Write [0x3c, 0x2f, 0x73, 0x74, 0x79, 0x6c, 0x65, 0x3e],
            Call.BaseRenderNode r.Base (ast.Node.Document content) true]⟩ ∧
    (∀ css out : Bytes, w.room = none →
      (ChromaCSS env r (w.Write [0x3c, 0x73, 0x74, 0x79, 0x6c, 0x65, 0x3e]).1).w =
        ⟨w.buf ++ [0x3c, 0x73, 0x74, 0x79, 0x6c, 0x65, 0x3e] ++ css, none⟩ →
      (env.BaseRenderNode r.Base
          ⟨w.buf ++ [0x3c, 0x73, 0x74, 0x79, 0x6c, 0x65, 0x3e] ++ css ++
            [0x3c, 0x2f, 0x73, 0x74, 0x79, 0x6c, 0x65, 0x3e], none⟩
          (ast.Node.Document content) true).1.buf =
        w.buf ++ [0x3c, 0x73, 0x74, 0x79, 0x6c, 0x65, 0x3e] ++ css ++
          [0x3c, 0x2f, 0x73, 0x74, 0x79, 0x6c, 0x65, 0x3e] ++ out →
      (RenderNode env r w (ast.Node.Document content) true).w.buf =
        w.buf ++ [0x3c, 0x73, 0x74, 0x79, 0x6c, 0x65, 0x3e] ++ css ++
          [0x3c, 0x2f, 0x73, 0x74, 0x79, 0x6c, 0x65, 0x3e] ++ out) := by
  have hN : RenderNode env r w (ast.Node.Document content) true =
      ⟨(env.BaseRenderNode r.Base
          (((ChromaCSS env r (w.Write styleOpen).1).w).Write styleClose).1
          (ast.Node.Document content) true).1,
        (env.BaseRenderNode r.Base
          (((ChromaCSS env r (w.Write styleOpen).1).w).Write styleClose).1
          (ast.Node.Document content) true).2,
        [Call.Write styleOpen] ++ (ChromaCSS env r (w.Write styleOpen).1).calls ++
          [Call.Write styleClose,
            Call.BaseRenderNode r.Base (ast.Node.Document content) true]⟩ := by
    simp [RenderNode, ChromaCSS, hEmbed]
  have hOpen : styleOpen = [0x3c, 0x73, 0x74, 0x79, 0x6c, 0x65, 0x3e] := rfl
  have hClose : styleClose = [0x3c, 0x2f, 0x73, 0x74, 0x79, 0x6c, 0x65, 0x3e] := rfl
  rw [hOpen, hClose] at hN
  refine ⟨by decide, by decide, hN, ?_⟩
  intro css out hroom hcss hbase
  rw [hN]
  simp only
  rw [hcss]
  have hw : (Writer.Write
      ⟨w.buf ++ [0x3c, 0x73, 0x74, 0x79, 0x6c, 0x65, 0x3e] ++ css, none⟩
      [0x3c, 0x2f, 0x73, 0x74, 0x79, 0x6c, 0x65, 0x3e]).1 =
      ⟨w.buf ++ [0x3c, 0x73, 0x74, 0x79, 0x6c, 0x65, 0x3e] ++ css ++
        [0x3c, 0x2f, 0x73, 0x74, 0x79, 0x6c, 0x65, 0x3e], none⟩ := rfl
  rw [hw, hbase]

/-- Claim C8 at the demo environment: a renderer built with `EmbedCSS()`, an
empty sink; the demo formatter's CSS is "a{}" (61 7b 7d) and the demo base
renderer writes nothing for the root.  The sink ends with the bytes of
"<style>a{}</style>". -/
theorem RenderNode_embedCSS_witness :
    (NewRenderer demoEnv [EmbedCSS]).1.embedCSS = true ∧
    (RenderNode demoEnv (NewRenderer demoEnv [EmbedCSS]).1 demoSink
      (ast.Node.Document 0) true).w.buf =
      [] ++ [0x3c, 0x73, 0x74, 0x79, 0x6c, 0x65, 0x3e] ++ [0x61, 0x7b, 0x7d] ++
        [0x3c, 0x2f, 0x73, 0x74, 0x79, 0x6c, 0x65, 0x3e] ++ [] ∧
    (RenderNode demoEnv (NewRenderer demoEnv [EmbedCSS]).1 demoSink
      (ast.Node.Document 0) true).w.buf = "<style>a\x7b\x7d</style>".toUTF8.data.toList ∧
    (ChromaCSS demoEnv (NewRenderer demoEnv [EmbedCSS]).1 demoSink).w.buf =
      [0x61, 0x7b, 0x7d] :=
  ⟨by decide,
    (RenderNode_embedCSS demoEnv (NewRenderer demoEnv [EmbedCSS]).1 demoSink 0
      (by decide)).2.2.2 [0x61, 0x7b, 0x7d] [] rfl rfl rfl,
    by decide,
    by decide⟩

/-- Claim C10, as stated, fails.  In the demo environment take the renderer
built with the formatter options `Standalone` and `WithClasses`, a block with
text "x=1" and a sink that accepts no byte.  Tokenizing succeeds; the
formatter's write of the CSS fails and `Format` returns the write error, which
`RenderWithChroma` returns; `RenderNode` absorbs it: it calls
`Base.RenderNode` and returns that call's signal, `GoToNext`, as it would
after a tokenize error. -/
theorem RenderNode_write_failure_counterexample :
    demoStandaloneRenderer.Formatter =
      some (demoEnv.htmlNew [demoStandalone, demoWithClasses]) ∧
    (fullSink.Write demoCSS).2.2 = some ErrShortWrite ∧
    demoEnv.Tokenise
      (selectLexer demoEnv demoStandaloneRenderer demoPlainText
        ⟨demoPlainText, [], 0⟩).1
      demoPlainText = Except.ok [⟨0, demoPlainText⟩] ∧
    demoEnv.Format demoStandaloneRenderer.Formatter fullSink
      demoStandaloneRenderer.Style [⟨0, demoPlainText⟩] = (fullSink, some ErrShortWrite) ∧
    (RenderWithChroma demoEnv demoStandaloneRenderer fullSink demoPlainText
      ⟨demoPlainText, [], 0⟩).val = some ErrShortWrite ∧
    Call.BaseRenderNode demoStandaloneRenderer.Base
        (ast.Node.CodeBlock ⟨demoPlainText, [], 0⟩) true ∈
      (RenderNode demoEnv demoStandaloneRenderer fullSink
        (ast.Node.CodeBlock ⟨demoPlainText, [], 0⟩) true).calls ∧
    (RenderNode demoEnv demoStandaloneRenderer fullSink
      (ast.Node.CodeBlock ⟨demoPlainText, [], 0⟩) true).val =
      (demoEnv.BaseRenderNode demoStandaloneRenderer.Base fullSink
        (ast.Node.CodeBlock ⟨demoPlainText, [], 0⟩) true).2 ∧
    (RenderNode demoEnv demoStandaloneRenderer fullSink
      (ast.Node.CodeBlock ⟨demoPlainText, [], 0⟩) true).val = ast.WalkStatus.GoToNext :=
  ⟨by decide, by decide, rfl, by decide, by decide, by decide, by decide, by decide⟩

/-- Claim C10, amended.  For a code block on which `RenderWithChroma` returns
an error, whichever it is (the tokenizer's, or the formatter's, a failed
write of the sink included), `RenderNode` calls `Base.RenderNode` on the
sink as `RenderWithChroma` left it, with the same node and entering flag, and
returns the sink and the traversal signal of that call. -/
theorem RenderNode_absorbs_error (env : Env) (r : Renderer) (w : Writer)
    (data : ast.CodeBlock) (entering : Bool) (e : Error)
    (hErr : (RenderWithChroma env r w data.Literal data).val = some e) :
    RenderNode env r w (ast.Node.CodeBlock data) entering =
      ⟨(env.BaseRenderNode r.Base (RenderWithChroma env r w data.Literal data).w
          (ast.Node.CodeBlock data) entering).1,
        (env.BaseRenderNode r.Base (RenderWithChroma env r w data.Literal data).w
          (ast.Node.CodeBlock data) entering).2,
        (RenderWithChroma env r w data.Literal data).calls ++
          [Call.BaseRenderNode r.Base (ast.Node.CodeBlock data) entering]⟩ := by
  simp [RenderNode, hErr]

/-- Claim C10, amended, at the demo environment: the renderer built with the
formatter options `Standalone` and `WithClasses` (formatter 3), the block
"x=1" and a sink that accepts no byte. -/
theorem RenderNode_absorbs_error_witness :
    (RenderWithChroma demoEnv demoStandaloneRenderer fullSink demoPlainText
      ⟨demoPlainText, [], 0⟩).val = some ErrShortWrite ∧
    RenderNode demoEnv demoStandaloneRenderer fullSink
      (ast.Node.CodeBlock ⟨demoPlainText, [], 0⟩) true =
      ⟨fullSink, ast.WalkStatus.GoToNext,
        [Call.lexersAnalyse demoPlainText, Call.Tokenise ⟨0⟩ demoPlainText,
          Call.Format (some ⟨3⟩) ⟨0⟩ [⟨0, demoPlainText⟩],
          Call.BaseRenderNode ⟨7⟩ (ast.Node.CodeBlock ⟨demoPlainText, [], 0⟩) true]⟩ :=
  ⟨by decide,
    RenderNode_absorbs_error demoEnv demoStandaloneRenderer fullSink
      ⟨demoPlainText, [], 0⟩ true ErrShortWrite (by decide)⟩

/-! ## The configuration builder -/

/-- What `lastSet` gives for a list with one more element in front. -/
theorem lastSet_getD_cons {α β : Type} (sets : α → Option β) (a : α) (rest : List α)
    (d : β) :
    (lastSet sets (a :: rest)).getD d = (lastSet sets rest).getD ((sets a).getD d) := by
  simp only [lastSet]
  cases lastSet sets rest <;> simp

/-- Applying exported options to a renderer: each field ends with the value
set by the last option that targets it, or keeps its value; `Formatter` is
not touched; the only collaborator called is `styles.Get`. -/
theorem applyOptions_adjustments (env : Env) (adjs : List Adjustment) (r : Renderer) :
    (applyOptions (adjs.map (Adjustment.toOption env)) r).1 =
      { Base := (lastSet Adjustment.base? adjs).getD r.Base
        Autodetect := (lastSet Adjustment.autodetect? adjs).getD r.Autodetect
        ChromaOptions := (lastSet Adjustment.chromaOptions? adjs).getD r.ChromaOptions
        Style := (lastSet (Adjustment.style? env) adjs).getD r.Style
        Formatter := r.Formatter
        embedCSS := (lastSet Adjustment.embedCSS? adjs).getD r.embedCSS } ∧
    ∀ c ∈ (applyOptions (adjs.map (Adjustment.toOption env)) r).2,
      ∃ s, c = Call.stylesGet s := by
  induction adjs generalizing r with
  | nil => simp [applyOptions, lastSet]
  | cons a rest ih =>
    simp only [List.map_cons, applyOptions, lastSet_getD_cons]
    obtain ⟨ih1, ih2⟩ := ih (Adjustment.toOption env a r).1
    refine ⟨?_, ?_⟩
    · rw [ih1]
      cases a <;> rfl
    · intro c hc
      rcases List.mem_append.mp hc with h | h
      · cases a <;>
          simp [Adjustment.toOption, bfchroma.Style, bfchroma.ChromaStyle,
            bfchroma.WithoutAutodetect, bfchroma.EmbedCSS, bfchroma.ChromaOptions,
            bfchroma.Extend] at h
        exact ⟨_, h⟩
      · exact ih2 c h

/-- A value that `lastSet` returns is set by an element of the list. -/
theorem lastSet_some {α β : Type} (sets : α → Option β) (l : List α) (b : β)
    (h : lastSet sets l = some b) : ∃ a ∈ l, sets a = some b := by
  induction l with
  | nil => simp [lastSet] at h
  | cons a rest ih =>
    simp only [lastSet] at h
    cases hr : lastSet sets rest with
    | none =>
      rw [hr] at h
      exact ⟨a, List.mem_cons_self a rest, h⟩
    | some b1 =>
      rw [hr] at h
      have hb : b1 = b := Option.some.inj h
      rw [hb] at hr
      obtain ⟨a1, ha1, hs⟩ := ih hr
      exact ⟨a1, List.mem_cons_of_mem a ha1, hs⟩

/-- When `lastSet` returns nothing, no element of the list sets a value. -/
theorem lastSet_none {α β : Type} (sets : α → Option β) (l : List α)
    (h : lastSet sets l = none) : ∀ a ∈ l, sets a = none := by
  induction l with
  | nil => simp
  | cons a rest ih =>
    simp only [lastSet] at h
    cases hr : lastSet sets rest with
    | none =>
      rw [hr] at h
      intro a1 ha1
      rcases List.mem_cons.mp ha1 with h1 | h1
      · rw [h1]; exact h
      · exact ih hr a1 h1
    | some b1 =>
      rw [hr] at h
      simp at h

/-- The autodetect flag set last is `false` exactly when `WithoutAutodetect`
is in the list. -/
theorem lastSet_autodetect (adjs : List Adjustment) :
    (lastSet Adjustment.autodetect? adjs).getD true = false ↔
      Adjustment.WithoutAutodetect ∈ adjs := by
  cases h : lastSet Adjustment.autodetect? adjs with
  | none =>
    have hn := lastSet_none _ _ h
    constructor
    · intro hf
      simp at hf
    · intro hm
      have := hn _ hm
      simp [Adjustment.autodetect?] at this
  | some b =>
    obtain ⟨a, ha, hs⟩ := lastSet_some _ _ _ h
    cases a <;> simp [Adjustment.autodetect?] at hs
    subst hs
    simp [ha]

/-- The CSS-embedding flag set last is `true` exactly when `EmbedCSS` is in
the list. -/
theorem lastSet_embedCSS (adjs : List Adjustment) :
    (lastSet Adjustment.embedCSS? adjs).getD false = true ↔
      Adjustment.EmbedCSS ∈ adjs := by
  cases h : lastSet Adjustment.embedCSS? adjs with
  | none =>
    have hn := lastSet_none _ _ h
    constructor
    · intro hf
      simp at hf
    · intro hm
      have := hn _ hm
      simp [Adjustment.embedCSS?] at this
  | some b =>
    obtain ⟨a, ha, hs⟩ := lastSet_some _ _ _ h
    cases a <;> simp [Adjustment.embedCSS?] at hs
    subst hs
    simp [ha]

/-- Claim C9.  `NewRenderer` is a total function.  For every list of exported
options, each field of the renderer it returns holds the value set by the
last option of the list that targets the field, or the default when none
does: style `styles.Monokai`, autodetect on, CSS embedding off, no formatter
options, base `mdhtml.NewRenderer` with `CommonFlags`.  So autodetect is off
exactly when `WithoutAutodetect` is in the list, and CSS embedding is on
exactly when `EmbedCSS` is.  The formatter is `html.New` of the final
formatter options; `html.New` is called once, with those options, as the last
call, after the calls made by the options (which are calls of `styles.Get`
only). -/
theorem NewRenderer_fields (env : Env) (adjs : List Adjustment) :
    (NewRenderer env (adjs.map (Adjustment.toOption env))).1 =
      { Base := (lastSet Adjustment.base? adjs).getD
          (env.mdhtmlNewRenderer ⟨env.mdhtmlCommonFlags⟩)
        Autodetect := (lastSet Adjustment.autodetect? adjs).getD true
        ChromaOptions := (lastSet Adjustment.chromaOptions? adjs).getD []
        Style := (lastSet (Adjustment.style? env) adjs).getD env.stylesMonokai
        Formatter := some (env.htmlNew ((lastSet Adjustment.chromaOptions? adjs).getD []))
        embedCSS := (lastSet Adjustment.embedCSS? adjs).getD false } ∧
    ((NewRenderer env (adjs.map (Adjustment.toOption env))).1.Autodetect = false ↔
      Adjustment.WithoutAutodetect ∈ adjs) ∧
    ((NewRenderer env (adjs.map (Adjustment.toOption env))).1.embedCSS = true ↔
      Adjustment.EmbedCSS ∈ adjs) ∧
    (∃ optionCalls,
      (NewRenderer env (adjs.map (Adjustment.toOption env))).2 =
        Call.mdhtmlNewRenderer ⟨env.mdhtmlCommonFlags⟩ :: optionCalls ++
          [Call.htmlNew ((lastSet Adjustment.chromaOptions? adjs).getD [])] ∧
      ∀ c ∈ optionCalls, ∃ s, c = Call.stylesGet s) ∧
    (NewRenderer env (adjs.map (Adjustment.toOption env))).2.count
      (Call.htmlNew ((lastSet Adjustment.chromaOptions? adjs).getD [])) = 1 ∧
    (∀ options, Call.htmlNew options ∈
        (NewRenderer env (adjs.map (Adjustment.toOption env))).2 →
      options = (lastSet Adjustment.chromaOptions? adjs).getD []) := by
  obtain ⟨h1, h2⟩ := applyOptions_adjustments env adjs
    { Base := env.mdhtmlNewRenderer ⟨env.mdhtmlCommonFlags⟩
      Style := env.stylesMonokai
      Autodetect := true
      ChromaOptions := []
      Formatter := none
      embedCSS := false }
  have hR : (NewRenderer env (adjs.map (Adjustment.toOption env))).1 =
      { Base := (lastSet Adjustment.base? adjs).getD
          (env.mdhtmlNewRenderer ⟨env.mdhtmlCommonFlags⟩)
        Autodetect := (lastSet Adjustment.autodetect? adjs).getD true
        ChromaOptions := (lastSet Adjustment.chromaOptions? adjs).getD []
        Style := (lastSet (Adjustment.style? env) adjs).getD env.stylesMonokai
        Formatter := some (env.htmlNew ((lastSet Adjustment.chromaOptions? adjs).getD []))
        embedCSS := (lastSet Adjustment.embedCSS? adjs).getD false } := by
    simp only [NewRenderer, h1]
  have hC : (NewRenderer env (adjs.map (Adjustment.toOption env))).2 =
      Call.mdhtmlNewRenderer ⟨env.mdhtmlCommonFlags⟩ ::
        (applyOptions (adjs.map (Adjustment.toOption env))
          { Base := env.mdhtmlNewRenderer ⟨env.mdhtmlCommonFlags⟩
            Style := env.stylesMonokai
            Autodetect := true
            ChromaOptions := []
            Formatter := none
            embedCSS := false }).2 ++
        [Call.htmlNew ((lastSet Adjustment.chromaOptions? adjs).getD [])] := by
    simp only [NewRenderer, h1]
    rfl
  refine ⟨hR, ?_, ?_, ⟨_, hC, h2⟩, ?_, ?_⟩
  · rw [hR]; exact lastSet_autodetect adjs
  · rw [hR]; exact lastSet_embedCSS adjs
  · rw [hC]
    have hz : List.count (Call.htmlNew ((lastSet Adjustment.chromaOptions? adjs).getD []))
        (applyOptions (adjs.map (Adjustment.toOption env))
          { Base := env.mdhtmlNewRenderer ⟨env.mdhtmlCommonFlags⟩
            Style := env.stylesMonokai
            Autodetect := true
            ChromaOptions := []
            Formatter := none
            embedCSS := false }).2 = 0 := by
      rw [List.count_eq_zero]
      intro hmem
      obtain ⟨s, hs⟩ := h2 _ hmem
      exact Call.noConfusion hs
    simp [List.count_cons, List.count_append, hz]
  · intro options hmem
    rw [hC] at hmem
    simp only [List.cons_append, List.mem_cons, List.mem_append, List.mem_singleton] at hmem
    rcases hmem with h | h | h
    · exact Call.noConfusion h
    · obtain ⟨s, hs⟩ := h2 _ h
      exact Call.noConfusion hs
    · rcases h with h | h
      · exact Call.htmlNew.inj h
      · simp at h

end bfchroma
